import Mathlib

/-
Verification development for the ShopBrand incremental classification
pipeline (src/app.py and src/app_gemini.py).

The pipeline is embedded shallowly:
* strings are Lean `String`s / `List Char`s; Python's `str.strip`,
  `str.replace`, slicing and `startswith`/`endswith` are modelled
  character-by-character;
* `json.loads` (with `object_hook=lambda d: SimpleNamespace(**d)`) is
  modelled by an executable recursive-descent JSON parser producing the
  inductive `Json` type (objects keep their key/value pairs in textual
  order; attribute lookup on the resulting namespace is `jGet`, which is
  last-binding-wins, matching dict construction followed by `getattr`);
  the numeric grammar covers integers, which is the only numeric shape
  the pipeline's fields use;
* the filesystem is a value: a list of directory entries plus an
  `isFile` predicate; file reads are an abstract total function from
  paths to byte lists; the inference backends are abstract functions
  from the built request to an optional response (`none` models a
  raised exception at the call site);
* the append-only results table is an in-memory list of rows; appending
  a row models `DataFrame.to_csv(mode="a")`.
-/

/-- JSON values, as produced by the pipeline's response parser. -/
inductive Json where
  | null : Json
  | bool : Bool → Json
  | num : Int → Json
  | str : String → Json
  | arr : List Json → Json
  | obj : List (String × Json) → Json

/-- `leadsWith p s` is true iff the list `p` is an initial segment of `s`
(Python `s.startswith(p)` read on characters). -/
def leadsWith : List Char → List Char → Bool
  | [], _ => true
  | _ :: _, [] => false
  | a :: as, b :: bs => a == b && leadsWith as bs

/-- Python `s.endswith(p)`, on character lists. -/
def endsWithL (p s : List Char) : Bool :=
  leadsWith p.reverse s.reverse

/-- Python `s.startswith(p)` on `String`s. -/
def strStarts (s p : String) : Bool :=
  leadsWith p.data s.data

/-- Python `s.endswith(p)` on `String`s. -/
def strEnds (s p : String) : Bool :=
  endsWithL p.data s.data

/-- The characters removed by Python `str.strip()` (the ASCII whitespace
set: space, tab, newline, carriage return, vertical tab, form feed). -/
def isPyWs (c : Char) : Bool :=
  c == ' ' || c == '\t' || c == '\n' || c == '\r' || c == '\x0b' || c == '\x0c'

/-- Python `str.strip()`: drop leading and trailing whitespace. -/
def pyStrip (cs : List Char) : List Char :=
  ((cs.dropWhile isPyWs).reverse.dropWhile isPyWs).reverse

/-- Worker for `pyReplace`; the fuel argument is an upper bound on the
number of characters still to be scanned. -/
def pyReplaceAux : Nat → List Char → List Char → List Char → List Char
  | 0, s, _, _ => s
  | _ + 1, [], _, _ => []
  | fuel + 1, c :: rest, old, new =>
    if leadsWith old (c :: rest) then
      new ++ pyReplaceAux fuel ((c :: rest).drop old.length) old new
    else
      c :: pyReplaceAux fuel rest old new

/-- Python `s.replace(old, new)`: replace every non-overlapping occurrence
of `old`, scanning left to right (`old` is non-empty at every call site). -/
def pyReplace (s old new : List Char) : List Char :=
  pyReplaceAux s.length s old new

/-- The markdown-fence stripping of `app_gemini.py` lines 128-131: drop a
leading 7-character token when the text starts with a ```json fence opener,
then drop a trailing 3-character token when it ends with a fence closer. -/
def stripFence (cs : List Char) : List Char :=
  let cs1 := if leadsWith "```json".data cs then cs.drop 7 else cs
  if endsWithL "```".data cs1 then cs1.take (cs1.length - 3) else cs1

/-- A single apostrophe character (Python's single-quote literal). -/
def squote : Char := Char.ofNat 39

/-- The response clean-up of `app_gemini.py` lines 127-132: strip
whitespace, strip the markdown fence, then the literal-dialect correction:
single quotes to double quotes and True/False/None to true/false/null. -/
def cleanGeminiText (s : String) : String :=
  let cs := stripFence (pyStrip s.data)
  let cs := pyReplace cs [squote] ['"']
  let cs := pyReplace cs "True".data "true".data
  let cs := pyReplace cs "False".data "false".data
  let cs := pyReplace cs "None".data "null".data
  String.mk cs

/-- JSON insignificant whitespace (space, tab, newline, carriage return). -/
def skipWs (cs : List Char) : List Char :=
  cs.dropWhile (fun c => c == ' ' || c == '\t' || c == '\n' || c == '\r')

/-- Parse the body of a JSON string (the opening quote already consumed);
returns the decoded characters and the remainder after the closing quote.
Raw control characters are rejected, as in Python's strict mode. -/
def parseStr : List Char → Option (List Char × List Char)
  | [] => none
  | c :: rest =>
    if c == '"' then some ([], rest)
    else if c == '\\' then
      match rest with
      | [] => none
      | e :: rest2 =>
        let dec : Option Char :=
          if e == '"' then some '"'
          else if e == '\\' then some '\\'
          else if e == '/' then some '/'
          else if e == 'n' then some '\n'
          else if e == 't' then some '\t'
          else if e == 'r' then some '\r'
          else if e == 'b' then some (Char.ofNat 8)
          else if e == 'f' then some (Char.ofNat 12)
          else none
        match dec with
        | none => none
        | some d => (parseStr rest2).map (fun p => (d :: p.1, p.2))
    else if c.toNat < 32 then none
    else (parseStr rest).map (fun p => (c :: p.1, p.2))

/-- Parse a run of decimal digits into a natural number (JSON forbids a
leading zero on a multi-digit number); returns the value and remainder. -/
def parseNumBody (cs : List Char) : Option (Nat × List Char) :=
  let digits := cs.takeWhile Char.isDigit
  let rest := cs.drop digits.length
  match digits with
  | [] => none
  | d :: ds =>
    if d == '0' && ds.length > 0 then none
    else some (digits.foldl (fun n c => 10 * n + (c.toNat - 48)) 0, rest)

mutual

/-- Parse one JSON value; returns it and the unconsumed remainder. The
fuel argument bounds recursion depth and is in practice at least twice
the input length, which is always sufficient. -/
def parseValue : Nat → List Char → Option (Json × List Char)
  | 0, _ => none
  | fuel + 1, cs =>
    match skipWs cs with
    | [] => none
    | c :: rest =>
      if c == '{' then
        match skipWs rest with
        | '}' :: rest2 => some (Json.obj [], rest2)
        | _ => parseMembers fuel (skipWs rest) []
      else if c == '[' then
        match skipWs rest with
        | ']' :: rest2 => some (Json.arr [], rest2)
        | _ => parseElems fuel (skipWs rest) []
      else if c == '"' then
        (parseStr rest).map (fun p => (Json.str (String.mk p.1), p.2))
      else if c == 't' then
        if leadsWith "rue".data rest then some (Json.bool true, rest.drop 3) else none
      else if c == 'f' then
        if leadsWith "alse".data rest then some (Json.bool false, rest.drop 4) else none
      else if c == 'n' then
        if leadsWith "ull".data rest then some (Json.null, rest.drop 3) else none
      else if c == '-' then
        (parseNumBody rest).map (fun p => (Json.num (-(p.1 : Int)), p.2))
      else if c.isDigit then
        (parseNumBody (c :: rest)).map (fun p => (Json.num (p.1 : Int), p.2))
      else none

/-- Parse the members of a JSON object after its opening brace (the input
starts at a key's opening quote); `acc` holds the members already read. -/
def parseMembers : Nat → List Char → List (String × Json) → Option (Json × List Char)
  | 0, _, _ => none
  | fuel + 1, cs, acc =>
    match skipWs cs with
    | '"' :: rest =>
      match parseStr rest with
      | none => none
      | some (k, rest1) =>
        match skipWs rest1 with
        | ':' :: rest2 =>
          match parseValue fuel rest2 with
          | none => none
          | some (v, rest3) =>
            match skipWs rest3 with
            | ',' :: rest4 => parseMembers fuel rest4 (acc ++ [(String.mk k, v)])
            | '}' :: rest4 => some (Json.obj (acc ++ [(String.mk k, v)]), rest4)
            | _ => none
        | _ => none
    | _ => none

/-- Parse the elements of a JSON array after its opening bracket. -/
def parseElems : Nat → List Char → List Json → Option (Json × List Char)
  | 0, _, _ => none
  | fuel + 1, cs, acc =>
    match parseValue fuel cs with
    | none => none
    | some (v, rest) =>
      match skipWs rest with
      | ',' :: rest1 => parseElems fuel rest1 (acc ++ [v])
      | ']' :: rest1 => some (Json.arr (acc ++ [v]), rest1)
      | _ => none

end

/-- Python `json.loads`: parse one JSON value and require that only
whitespace follows it; any leftover input is an error. -/
def jsonParse (s : String) : Option Json :=
  match parseValue (2 * s.data.length + 2) s.data with
  | some (j, rest) => if skipWs rest == [] then some j else none
  | none => none

/-- The gemini response parse stage (`app_gemini.py` lines 125-141):
clean the raw text, then `json.loads` it; `none` is the
`json.JSONDecodeError` path, on which the function returns without
appending a row. -/
def geminiParse (s : String) : Option Json :=
  jsonParse (cleanGeminiText s)

/-- `getattr(ns, k, default)` on the namespace built by
`SimpleNamespace(**d)` from a parsed JSON object: `some v` when the key
is present (last binding wins, as in dict construction), `none` when the
key is absent or the parsed value is not an object. -/
def jGet (j : Json) (k : String) : Option Json :=
  match j with
  | Json.obj kvs => kvs.foldl (fun acc p => if p.1 == k then some p.2 else acc) none
  | _ => none

example : jsonParse "\x7b\"hasShop\": true\x7d" = some (Json.obj [("hasShop", Json.bool true)]) := rfl
example : geminiParse "not json at all" = none := rfl
example : jsonParse "[1, -2, null]" = some (Json.arr [Json.num 1, Json.num (-2), Json.null]) := rfl
example : jsonParse "1.5" = none := rfl

/-- The base64 alphabet. -/
def b64chars : List Char :=
  "ABCDEFGHIJKLMNOPQRSTUVWXYZabcdefghijklmnopqrstuvwxyz0123456789+/".data

/-- The base64 digit for a 6-bit value. -/
def b64c (n : Nat) : Char := b64chars.getD n 'A'

/-- `base64.b64encode` on a byte list (standard alphabet, '=' padding). -/
def b64encode : List Nat → List Char
  | [] => []
  | [a] => [b64c (a / 4), b64c (a % 4 * 16), '=', '=']
  | [a, b] => [b64c (a / 4), b64c (a % 4 * 16 + b / 16), b64c (b % 16 * 4), '=']
  | a :: b :: c :: rest =>
    [b64c (a / 4), b64c (a % 4 * 16 + b / 16), b64c (b % 16 * 4 + c / 64), b64c (c % 64)]
      ++ b64encode rest

/-- `convert_file_to_base64_data_url` of `app.py` lines 19-46: read the
file, base64-encode it, pick the MIME type from the filename extension
(jpg/jpeg, png, gif), and raise `ValueError` for any other extension.
The filesystem read is the abstract total function `read`. -/
def convert_file_to_base64_data_url (read : String → List Nat) (file_path : String) :
    Except String String :=
  let base64_data := String.mk (b64encode (read file_path))
  if strEnds file_path ".jpg" || strEnds file_path ".jpeg" then
    Except.ok ("data:image/jpeg;base64," ++ base64_data)
  else if strEnds file_path ".png" then
    Except.ok ("data:image/png;base64," ++ base64_data)
  else if strEnds file_path ".gif" then
    Except.ok ("data:image/gif;base64," ++ base64_data)
  else
    Except.error ("Unsupported file format for " ++ file_path)

/-- One part of a gemini request: the prompt text or one inline image
(declared MIME type plus raw bytes). -/
inductive GPart where
  | text : String → GPart
  | blob : String → List Nat → GPart

/-- The gemini request assembly of `app_gemini.py` lines 103-107: start
from the prompt, then append one part per image of `images[:10]`, each
tagged `image/jpeg` regardless of its extension. -/
def geminiParts (read : String → List Nat) (prompt_text : String) (images : List String) :
    List GPart :=
  (images.take 10).foldl
    (fun parts image_path => parts ++ [GPart.blob "image/jpeg" (read image_path)])
    [GPart.text prompt_text]

/-- The loop body of the ChatGPT image-entry assembly: append one
data-URL entry per image; the first encoding failure aborts the whole
build (the raised `ValueError` propagates to the enclosing handler). -/
def chatgptEntriesAux (read : String → List Nat) :
    List String → List String → Except String (List String)
  | [], image_entries => Except.ok image_entries
  | image :: rest, image_entries =>
    match convert_file_to_base64_data_url read image with
    | Except.error e => Except.error e
    | Except.ok u => chatgptEntriesAux read rest (image_entries ++ [u])

/-- The ChatGPT image-entry assembly of `app.py` lines 171-179: one
entry per image of `images[:10]`, each modelled by its data URL. -/
def chatgptImageEntries (read : String → List Nat) (images : List String) :
    Except String (List String) :=
  chatgptEntriesAux read (images.take 10) []

/-- One row of the gemini results table (`app_gemini.py` lines 148-157):
`none` fields are Python `None` values, written as empty CSV cells. -/
structure GeminiRow where
  siteID : String
  hasShop : Option Json
  shopBrand : Option Json
  accuracy : Option Json
  tokens : Nat
  usedPhotoDate : Option Json
  usedPhotoFileName : Option Json
  isStreetViewPhoto : Option Json

/-- One row of the ChatGPT results table (`app.py` lines 200-207); the
four response fields come from direct attribute access, so they are
present whenever a row exists at all. -/
structure ChatgptRow where
  siteID : String
  hasShop : Json
  shopBrand : Json
  accuracy : Json
  tokens : Nat

/-- `call_gemini_with_images` (`app_gemini.py` lines 91-165) acting on
the results table. `read` models file reads, `countTokens` the
pre-flight `model.count_tokens` call, `respond` the
`model.generate_content` call (`none` = the call raised, caught by the
outer handler). A failed parse returns early; a successful parse
projects the six recognized fields with `getattr(_, _, None)` and
appends exactly one row, with `Tokens = input_tokens + output_tokens`
where `output_tokens` is the hard-coded 0. -/
def call_gemini_with_images (read : String → List Nat) (countTokens : List GPart → Nat)
    (respond : List GPart → Option String) (images : List String)
    (prompt_text siteid : String) (table : List GeminiRow) : List GeminiRow :=
  let parts := geminiParts read prompt_text images
  let input_tokens := countTokens parts
  match respond parts with
  | none => table
  | some text =>
    match geminiParse text with
    | none => table
    | some response_json =>
      let output_tokens := 0
      let total_tokens := input_tokens + output_tokens
      table ++ [{ siteID := siteid
                  hasShop := jGet response_json "hasShop"
                  shopBrand := jGet response_json "shopBrand"
                  accuracy := jGet response_json "accuracy"
                  tokens := total_tokens
                  usedPhotoDate := jGet response_json "usedPhotoDate"
                  usedPhotoFileName := jGet response_json "usedPhotoFileName"
                  isStreetViewPhoto := jGet response_json "isStreetViewPhoto" }]

/-- `call_chatgpt_with_images` (`app.py` lines 157-218) acting on the
results table. `respond` models the chat-completions call on the built
image entries, returning the message content and `usage.total_tokens`
(`none` = the call raised). Every failure path — encoding error,
inference error, `json.loads` error, and a missing `hasShop`,
`shopBrand` or `accuracy` attribute (direct attribute access raises
`AttributeError`) — is caught by the enclosing `except` and appends
nothing. -/
def call_chatgpt_with_images (read : String → List Nat)
    (respond : String → List String → Option (String × Nat)) (images : List String)
    (prompt_text siteid : String) (table : List ChatgptRow) : List ChatgptRow :=
  match chatgptImageEntries read images with
  | Except.error _ => table
  | Except.ok image_entries =>
    match respond prompt_text image_entries with
    | none => table
    | some (content, total_tokens) =>
      match jsonParse content with
      | none => table
      | some response_json =>
        match jGet response_json "hasShop", jGet response_json "shopBrand",
              jGet response_json "accuracy" with
        | some h, some b, some a =>
          table ++ [{ siteID := siteid, hasShop := h, shopBrand := b,
                      accuracy := a, tokens := total_tokens }]
        | _, _, _ => table

/-- The evidence store as seen by the pipeline: whether the root folder
exists, its directory entries in native enumeration order
(`os.listdir`), and which joined paths are regular files
(`os.path.isfile`). -/
structure FS where
  rootExists : Bool
  entries : List String
  isFile : String → Bool

/-- `os.path.join` for the forward-slash store layout used here. -/
def joinPath (folder f : String) : String := folder ++ "/" ++ f

/-- `get_site_image_paths` (`app.py` lines 101-125, identical in
`app_gemini.py` lines 68-79): raise `FileNotFoundError` when the folder
is missing, otherwise keep the entries that start with `siteid + "_"`
and are regular files, joined to the folder, in enumeration order. -/
def get_site_image_paths (siteid : String) (fs : FS) (images_folder : String) :
    Except String (List String) :=
  if fs.rootExists = false then
    Except.error ("Images folder not found: " ++ images_folder)
  else
    Except.ok
      ((fs.entries.filter
          (fun f => strStarts f (siteid ++ "_") && fs.isFile (joinPath images_folder f))).map
        (fun f => joinPath images_folder f))

/-- The identifier encoded in a filename: the part before the first
underscore (`filename.split("_", 1)[0]`). -/
def siteidOf (f : String) : String :=
  String.mk (f.data.takeWhile (fun c => !(c == '_')))

/-- Insert into a duplicate-free list, keeping first-occurrence order
(the model of Python set insertion for this proof). -/
def insertUnique (l : List String) (x : String) : List String :=
  if x ∈ l then l else l ++ [x]

/-- `get_unique_siteids` (`app.py` lines 221-242): the distinct
identifiers extracted from every entry whose name contains an
underscore. -/
def get_unique_siteids (entries : List String) : List String :=
  (entries.filter (fun f => f.data.contains '_')).foldl
    (fun acc f => insertUnique acc (siteidOf f)) []

/-- The `SiteID` column of the results table, as strings (the
`astype(str)` canonicalization of `app.py` line 260 is the identity on
this in-memory table, whose keys are already strings). -/
def processedSiteids {α : Type} (table : List (String × α)) : List String :=
  table.map Prod.fst

/-- The pending set: the identifier universe minus the processed
`SiteID` column (the skip test of the main loops). -/
def pendingSet {α : Type} (ids : List String) (table : List (String × α)) : List String :=
  ids.filter (fun sid => decide (sid ∉ processedSiteids table))

/-- The main loop of both `__main__` blocks, with the processed set
captured before the loop: skip an identifier already in `processed`,
otherwise run the per-item pipeline `oracle` (evidence gathering,
inference, parse — deterministic for fixed evidence) and append its row
on success. -/
def runAux {α : Type} (oracle : String → Option α) (processed : List String) :
    List String → List (String × α) → List (String × α)
  | [], table => table
  | sid :: rest, table =>
    if sid ∈ processed then runAux oracle processed rest table
    else
      match oracle sid with
      | some r => runAux oracle processed rest (table ++ [(sid, r)])
      | none => runAux oracle processed rest table

/-- One full pipeline run (`app.py` lines 245-283, `app_gemini.py` lines
184-215): derive the identifier universe from the evidence store's
entries, load the processed `SiteID` set from the existing table, and
process each pending identifier in turn. -/
def runPipeline {α : Type} (oracle : String → Option α) (entries : List String)
    (table : List (String × α)) : List (String × α) :=
  runAux oracle (processedSiteids table) (get_unique_siteids entries) table

example :
    get_site_image_paths "site1" ⟨true, ["site1_a.jpg", "other.png"], fun _ => true⟩ "imgs" =
      Except.ok ["imgs/site1_a.jpg"] := rfl
example : get_unique_siteids ["site1_a.jpg", "site2_b.png", "site1_c.gif"] = ["site1", "site2"] := rfl
example :
    convert_file_to_base64_data_url (fun _ => [77, 97, 110]) "a.png" =
      Except.ok "data:image/png;base64,TWFu" := rfl
example :
    convert_file_to_base64_data_url (fun _ => []) "site1_a.webp" =
      Except.error "Unsupported file format for site1_a.webp" := rfl

theorem processedSiteids_append {α : Type} (t : List (String × α)) (x : String × α) :
    processedSiteids (t ++ [x]) = processedSiteids t ++ [x.1] := by
  simp [processedSiteids]

/-- Appending rows can only grow the processed set. -/
theorem runAux_processed_mono {α : Type} (o : String → Option α) (p : List String)
    (sid : String) :
    ∀ (l : List String) (t : List (String × α)),
      sid ∈ processedSiteids t → sid ∈ processedSiteids (runAux o p l t) := by
  intro l
  induction l with
  | nil => intro t h; simpa [runAux] using h
  | cons x rest ih =>
    intro t h
    simp only [runAux]
    by_cases hx : x ∈ p
    · rw [if_pos hx]; exact ih t h
    · rw [if_neg hx]
      cases hox : o x with
      | some r =>
        exact ih (t ++ [(x, r)])
          (by rw [processedSiteids_append]; exact List.mem_append_left _ h)
      | none => exact ih t h

/-- An identifier of the worklist whose per-item pipeline succeeds ends up
in the processed set, provided the captured skip set only names already
processed identifiers. -/
theorem runAux_success_mem {α : Type} (o : String → Option α) (p : List String)
    (sid : String) (r : α) (ho : o sid = some r) :
    ∀ (l : List String) (t : List (String × α)), sid ∈ l →
      (∀ x ∈ p, x ∈ processedSiteids t) →
      sid ∈ processedSiteids (runAux o p l t) := by
  intro l
  induction l with
  | nil => intro t hl _; cases hl
  | cons x rest ih =>
    intro t hl hp
    simp only [runAux]
    rcases List.mem_cons.mp hl with rfl | hmem
    · by_cases hx : sid ∈ p
      · rw [if_pos hx]
        exact runAux_processed_mono o p sid rest t (hp sid hx)
      · rw [if_neg hx, ho]
        exact runAux_processed_mono o p sid rest (t ++ [(sid, r)])
          (by rw [processedSiteids_append]
              exact List.mem_append_right _ (List.mem_singleton.mpr rfl))
    · have hstep : ∀ (t' : List (String × α)), (∀ x ∈ p, x ∈ processedSiteids t') →
          sid ∈ processedSiteids (runAux o p rest t') := fun t' hp' => ih t' hmem hp'
      by_cases hx : x ∈ p
      · rw [if_pos hx]; exact hstep t hp
      · rw [if_neg hx]
        cases hox : o x with
        | some r' =>
          exact hstep (t ++ [(x, r')])
            (fun y hy => by
              rw [processedSiteids_append]; exact List.mem_append_left _ (hp y hy))
        | none => exact hstep t hp

/-- When every worklist identifier is either skipped or fails, the run
appends nothing. -/
theorem runAux_no_new {α : Type} (o : String → Option α) (p : List String) :
    ∀ (l : List String) (t : List (String × α)),
      (∀ sid ∈ l, sid ∈ p ∨ o sid = none) → runAux o p l t = t := by
  intro l
  induction l with
  | nil => intro t _; rfl
  | cons x rest ih =>
    intro t h
    have hrest : ∀ s ∈ rest, s ∈ p ∨ o s = none :=
      fun s hs => h s (List.mem_cons_of_mem _ hs)
    simp only [runAux]
    rcases h x (List.mem_cons_self x rest) with hx | hx
    · rw [if_pos hx]; exact ih t hrest
    · by_cases hxp : x ∈ p
      · rw [if_pos hxp]; exact ih t hrest
      · rw [if_neg hxp, hx]; exact ih t hrest

/-- C1: at-most-one-row-per-SiteID resumability. For an identifier
universe derived from the evidence store's entries and any starting
results table, an identifier whose item succeeded (and was therefore
appended) during a run is absent from the pending set computed against
the resulting table, and a second identical run (same evidence, same
deterministic per-item outcomes) leaves the table unchanged, appending
zero new rows. -/
theorem c1_resumability {α : Type} (oracle : String → Option α) (entries : List String)
    (table : List (String × α)) (sid : String) (r : α)
    (hmem : sid ∈ get_unique_siteids entries) (hsucc : oracle sid = some r) :
    sid ∉ pendingSet (get_unique_siteids entries) (runPipeline oracle entries table) ∧
    runPipeline oracle entries (runPipeline oracle entries table) =
      runPipeline oracle entries table := by
  have hp0 : ∀ x ∈ processedSiteids table, x ∈ processedSiteids table := fun _ hx => hx
  have hs : sid ∈ processedSiteids (runPipeline oracle entries table) :=
    runAux_success_mem oracle _ sid r hsucc _ table hmem hp0
  constructor
  · intro habs
    simp only [pendingSet, List.mem_filter] at habs
    exact (of_decide_eq_true habs.2) hs
  · simp only [runPipeline]
    apply runAux_no_new
    intro s hsm
    cases hos : oracle s with
    | none => exact Or.inr rfl
    | some r' =>
      exact Or.inl (runAux_success_mem oracle _ s r' hos _ table hsm hp0)

/-- Witness for C1: a concrete two-site store, an oracle succeeding on
`site1`, and the empty starting table. -/
theorem c1_resumability_witness :
    "site1" ∈ get_unique_siteids ["site1_a.jpg", "site2_b.png"] ∧
    ("site1" ∉ pendingSet (get_unique_siteids ["site1_a.jpg", "site2_b.png"])
        (runPipeline (fun s => if s = "site1" then some 3 else none)
          ["site1_a.jpg", "site2_b.png"] []) ∧
      runPipeline (fun s => if s = "site1" then some 3 else (none : Option Nat))
          ["site1_a.jpg", "site2_b.png"]
          (runPipeline (fun s => if s = "site1" then some 3 else none)
            ["site1_a.jpg", "site2_b.png"] []) =
        runPipeline (fun s => if s = "site1" then some 3 else none)
          ["site1_a.jpg", "site2_b.png"] []) :=
  ⟨by decide,
    c1_resumability (fun s => if s = "site1" then some 3 else none)
      ["site1_a.jpg", "site2_b.png"] [] "site1" 3 (by decide) (by decide)⟩

/-- C2: atomic skip on failure. Every failure path of an item — a failed
inference call on either backend, a response payload that does not parse
as JSON, or an image-encoding error on backend A — leaves the results
table exactly as it was, so the table only ever grows by rows built from
successfully parsed responses; in particular the payload
"not json at all" is a parse failure. -/
theorem c2_atomic_skip :
    (∀ (read : String → List Nat) (countTokens : List GPart → Nat)
        (respond : List GPart → Option String) (images : List String)
        (prompt_text siteid : String) (table : List GeminiRow),
        respond (geminiParts read prompt_text images) = none →
        call_gemini_with_images read countTokens respond images prompt_text siteid table =
          table) ∧
    (∀ (read : String → List Nat) (countTokens : List GPart → Nat)
        (respond : List GPart → Option String) (images : List String)
        (prompt_text siteid text : String) (table : List GeminiRow),
        respond (geminiParts read prompt_text images) = some text →
        geminiParse text = none →
        call_gemini_with_images read countTokens respond images prompt_text siteid table =
          table) ∧
    (∀ (read : String → List Nat) (respond : String → List String → Option (String × Nat))
        (images : List String) (prompt_text siteid e : String) (table : List ChatgptRow),
        chatgptImageEntries read images = Except.error e →
        call_chatgpt_with_images read respond images prompt_text siteid table = table) ∧
    (∀ (read : String → List Nat) (respond : String → List String → Option (String × Nat))
        (images : List String) (prompt_text siteid : String) (table : List ChatgptRow)
        (es : List String),
        chatgptImageEntries read images = Except.ok es →
        respond prompt_text es = none →
        call_chatgpt_with_images read respond images prompt_text siteid table = table) ∧
    (∀ (read : String → List Nat) (respond : String → List String → Option (String × Nat))
        (images : List String) (prompt_text siteid : String) (table : List ChatgptRow)
        (es : List String) (text : String) (tok : Nat),
        chatgptImageEntries read images = Except.ok es →
        respond prompt_text es = some (text, tok) →
        jsonParse text = none →
        call_chatgpt_with_images read respond images prompt_text siteid table = table) ∧
    geminiParse "not json at all" = none := by
  refine ⟨?_, ?_, ?_, ?_, ?_, rfl⟩
  · intro read countTokens respond images prompt_text siteid table h
    simp [call_gemini_with_images, h]
  · intro read countTokens respond images prompt_text siteid text table h1 h2
    simp [call_gemini_with_images, h1, h2]
  · intro read respond images prompt_text siteid e table h
    simp [call_chatgpt_with_images, h]
  · intro read respond images prompt_text siteid table es h1 h2
    simp [call_chatgpt_with_images, h1, h2]
  · intro read respond images prompt_text siteid table es text tok h1 h2 h3
    simp [call_chatgpt_with_images, h1, h2, h3]

/-- Witness for C2: a gemini call whose response is not JSON appends no
row, and a ChatGPT call whose inference call raises appends no row. -/
theorem c2_atomic_skip_witness :
    call_gemini_with_images (fun _ => []) (fun _ => 0) (fun _ => some "not json at all")
      ["site1_a.jpg"] "p" "site1" [] = [] ∧
    call_chatgpt_with_images (fun _ => []) (fun _ _ => none) ["site1_a.jpg"] "p" "site1" []
      = [] :=
  ⟨c2_atomic_skip.2.1 (fun _ => []) (fun _ => 0) (fun _ => some "not json at all")
      ["site1_a.jpg"] "p" "site1" "not json at all" [] rfl c2_atomic_skip.2.2.2.2.2,
    c2_atomic_skip.2.2.2.1 (fun _ => []) (fun _ _ => none) ["site1_a.jpg"] "p" "site1" []
      ["data:image/jpeg;base64,"] rfl rfl⟩

/-- C3 counterexample: the claim fails on backend A. The payload parses
to a JSON object in which `shopBrand` and `accuracy` are absent; the
claim predicts a row whose missing fields default to null, but
`call_chatgpt_with_images` reads the fields by direct attribute access,
the lookup fails, and no row at all is appended (the table stays empty). -/
theorem c3_counterexample :
    jsonParse "\x7b\"hasShop\": true\x7d" = some (Json.obj [("hasShop", Json.bool true)]) ∧
    call_chatgpt_with_images (fun _ => [])
      (fun _ _ => some ("\x7b\"hasShop\": true\x7d", 3)) ["site1_a.jpg"] "p" "site1" [] = [] :=
  ⟨rfl, rfl⟩

/-- C3 (amended): missing-field tolerance holds on backend B only — for
every successfully parsed gemini payload a row is appended and each of
the six recognized fields that is absent from the parsed object is
stored as null; backend A instead fails the whole item (appending no
row) whenever `hasShop`, `shopBrand` or `accuracy` is absent, because it
reads them by direct attribute access. -/
theorem c3_missing_field_tolerance :
    (∀ (read : String → List Nat) (countTokens : List GPart → Nat)
        (respond : List GPart → Option String) (images : List String)
        (prompt_text siteid text : String) (table : List GeminiRow) (j : Json),
        respond (geminiParts read prompt_text images) = some text →
        geminiParse text = some j →
        ∃ row, call_gemini_with_images read countTokens respond images prompt_text siteid table
            = table ++ [row] ∧
          row.siteID = siteid ∧
          (jGet j "hasShop" = none → row.hasShop = none) ∧
          (jGet j "shopBrand" = none → row.shopBrand = none) ∧
          (jGet j "accuracy" = none → row.accuracy = none) ∧
          (jGet j "usedPhotoDate" = none → row.usedPhotoDate = none) ∧
          (jGet j "usedPhotoFileName" = none → row.usedPhotoFileName = none) ∧
          (jGet j "isStreetViewPhoto" = none → row.isStreetViewPhoto = none)) ∧
    (∀ (read : String → List Nat) (respond : String → List String → Option (String × Nat))
        (images : List String) (prompt_text siteid : String) (table : List ChatgptRow)
        (es : List String) (text : String) (tok : Nat) (j : Json),
        chatgptImageEntries read images = Except.ok es →
        respond prompt_text es = some (text, tok) →
        jsonParse text = some j →
        jGet j "hasShop" = none ∨ jGet j "shopBrand" = none ∨ jGet j "accuracy" = none →
        call_chatgpt_with_images read respond images prompt_text siteid table = table) := by
  constructor
  · intro read countTokens respond images prompt_text siteid text table j h1 h2
    refine ⟨{ siteID := siteid
              hasShop := jGet j "hasShop"
              shopBrand := jGet j "shopBrand"
              accuracy := jGet j "accuracy"
              tokens := countTokens (geminiParts read prompt_text images) + 0
              usedPhotoDate := jGet j "usedPhotoDate"
              usedPhotoFileName := jGet j "usedPhotoFileName"
              isStreetViewPhoto := jGet j "isStreetViewPhoto" },
        ?_, rfl, fun h => h, fun h => h, fun h => h, fun h => h, fun h => h, fun h => h⟩
    simp [call_gemini_with_images, h1, h2]
  · intro read respond images prompt_text siteid table es text tok j h1 h2 h3 h4
    simp only [call_chatgpt_with_images, h1, h2, h3]
    rcases h4 with h | h | h
    · rw [h]
    · rw [h]
      cases jGet j "hasShop" <;> rfl
    · rw [h]
      cases jGet j "hasShop" <;> cases jGet j "shopBrand" <;> rfl

/-- Witness for C3 (amended): a concrete gemini payload with only
`hasShop` present yields exactly one appended row whose `shopBrand`
field is null. -/
theorem c3_missing_field_tolerance_witness :
    ∃ row, call_gemini_with_images (fun _ => []) (fun _ => 0)
        (fun _ => some "\x7b\"hasShop\": true\x7d") ["site1_a.jpg"] "p" "site1" []
        = [] ++ [row] ∧ row.siteID = "site1" ∧ row.shopBrand = none := by
  obtain ⟨row, h1, h2, _, hsb, _⟩ := c3_missing_field_tolerance.1 (fun _ => []) (fun _ => 0)
    (fun _ => some "\x7b\"hasShop\": true\x7d") ["site1_a.jpg"] "p" "site1"
    "\x7b\"hasShop\": true\x7d" [] (Json.obj [("hasShop", Json.bool true)]) rfl rfl
  exact ⟨row, h1, h2, hsb rfl⟩

/-- The test payload of C4, written with Python literal spellings:
single-quoted keys, `True` and `None`. -/
def c4payload : String :=
  "\x7b" ++ String.mk [squote] ++ "hasShop" ++ String.mk [squote] ++ ": True, " ++
    String.mk [squote] ++ "shopBrand" ++ String.mk [squote] ++ ": None\x7d"

/-- C4: literal-dialect correction. The cleaner rewrites the
Python-dialect payload into standard JSON (single quotes to double
quotes, True to true, None to null), and the parse therefore yields the
record with `hasShop = true` and `shopBrand = null`. -/
theorem c4_literal_dialect :
    cleanGeminiText c4payload = "\x7b\"hasShop\": true, \"shopBrand\": null\x7d" ∧
    geminiParse c4payload =
      some (Json.obj [("hasShop", Json.bool true), ("shopBrand", Json.null)]) :=
  ⟨rfl, rfl⟩

/-- C5: fence-stripping round-trip. Parsing the payload wrapped in a
markdown ```json fence yields the same result as parsing the bare
payload, and that common result is the singleton `hasShop = true`
object. -/
theorem c5_fence_roundtrip :
    geminiParse "```json\n\x7b\"hasShop\": true\x7d\n```" =
      geminiParse "\x7b\"hasShop\": true\x7d" ∧
    geminiParse "\x7b\"hasShop\": true\x7d" = some (Json.obj [("hasShop", Json.bool true)]) :=
  ⟨rfl, rfl⟩

/-- A fold that appends one image part per element builds the prompt
followed by the mapped list. -/
theorem foldl_append_blob (read : String → List Nat) :
    ∀ (l : List String) (init : List GPart),
      l.foldl (fun parts image_path => parts ++ [GPart.blob "image/jpeg" (read image_path)])
          init =
        init ++ l.map (fun image_path => GPart.blob "image/jpeg" (read image_path)) := by
  intro l
  induction l with
  | nil => intro init; simp
  | cons x rest ih => intro init; simp [ih]

/-- When every image of the worklist encodes successfully, the entry
loop returns the data URLs in order. -/
theorem chatgptEntriesAux_all_ok (read : String → List Nat) (urls : String → String) :
    ∀ (l acc : List String),
      (∀ p ∈ l, convert_file_to_base64_data_url read p = Except.ok (urls p)) →
      chatgptEntriesAux read l acc = Except.ok (acc ++ l.map urls) := by
  intro l
  induction l with
  | nil => intro acc _; simp [chatgptEntriesAux]
  | cons x rest ih =>
    intro acc h
    have hx := h x (List.mem_cons_self x rest)
    simp only [chatgptEntriesAux, hx]
    rw [ih (acc ++ [urls x]) (fun p hp => h p (List.mem_cons_of_mem _ hp))]
    simp

/-- A successful entry build has one entry per worklist element. -/
theorem chatgptEntriesAux_ok_length (read : String → List Nat) :
    ∀ (l acc es : List String),
      chatgptEntriesAux read l acc = Except.ok es → es.length = acc.length + l.length := by
  intro l
  induction l with
  | nil =>
    intro acc es h
    simp only [chatgptEntriesAux] at h
    cases h
    simp
  | cons x rest ih =>
    intro acc es h
    simp only [chatgptEntriesAux] at h
    cases hcx : convert_file_to_base64_data_url read x with
    | error e => rw [hcx] at h; cases h
    | ok u =>
      rw [hcx] at h
      have := ih (acc ++ [u]) es h
      simp only [List.length_append, List.length_cons, List.length_nil] at this ⊢
      omega

/-- An encoding failure anywhere in the worklist aborts the entry build
with an error. -/
theorem chatgptEntriesAux_error (read : String → List Nat) :
    ∀ (l acc : List String) (path msg : String), path ∈ l →
      convert_file_to_base64_data_url read path = Except.error msg →
      ∃ e, chatgptEntriesAux read l acc = Except.error e := by
  intro l
  induction l with
  | nil => intro acc path msg h _; cases h
  | cons x rest ih =>
    intro acc path msg hmem hconv
    rcases List.mem_cons.mp hmem with rfl | hmem'
    · exact ⟨msg, by simp [chatgptEntriesAux, hconv]⟩
    · cases hcx : convert_file_to_base64_data_url read x with
      | error e => exact ⟨e, by simp [chatgptEntriesAux, hcx]⟩
      | ok u =>
        obtain ⟨e, he⟩ := ih (acc ++ [u]) path msg hmem' hconv
        exact ⟨e, by simp [chatgptEntriesAux, hcx, he]⟩

/-- C6: evidence truncation. With at least 10 evidence artifacts, the
gemini request is the prompt followed by exactly the first 10 artifacts
in enumeration order (11 parts in all), and the ChatGPT request holds
exactly one entry per artifact of the same first-10 worklist: when every
encoding succeeds the entries are the 10 data URLs in order, and any
successful build has exactly 10 entries. -/
theorem c6_truncation (read : String → List Nat) (prompt_text : String)
    (images : List String) (h10 : 10 ≤ images.length) :
    geminiParts read prompt_text images =
      GPart.text prompt_text ::
        (images.take 10).map (fun p => GPart.blob "image/jpeg" (read p)) ∧
    (geminiParts read prompt_text images).length = 11 ∧
    (∀ urls : String → String,
        (∀ p ∈ images.take 10, convert_file_to_base64_data_url read p = Except.ok (urls p)) →
        chatgptImageEntries read images = Except.ok ((images.take 10).map urls)) ∧
    (∀ es, chatgptImageEntries read images = Except.ok es → es.length = 10) ∧
    (images.take 10).length = 10 := by
  have hlen : (images.take 10).length = 10 := by
    rw [List.length_take]
    omega
  have hparts : geminiParts read prompt_text images =
      GPart.text prompt_text ::
        (images.take 10).map (fun p => GPart.blob "image/jpeg" (read p)) := by
    rw [geminiParts, foldl_append_blob]
    rfl
  refine ⟨hparts, ?_, ?_, ?_, hlen⟩
  · rw [hparts]
    simp only [List.length_cons, List.length_map, hlen]
  · intro urls h
    rw [chatgptImageEntries, chatgptEntriesAux_all_ok read urls _ [] h]
    rfl
  · intro es h
    have := chatgptEntriesAux_ok_length read (images.take 10) [] es h
    simpa [hlen] using this

/-- Witness for C6: a concrete 15-artifact store; the gemini request has
11 parts and the truncated worklist 10 entries. -/
theorem c6_truncation_witness :
    (geminiParts (fun _ => []) "p"
        ["s_1.jpg", "s_2.jpg", "s_3.jpg", "s_4.jpg", "s_5.jpg", "s_6.jpg", "s_7.jpg",
         "s_8.jpg", "s_9.jpg", "s_10.jpg", "s_11.jpg", "s_12.jpg", "s_13.jpg", "s_14.jpg",
         "s_15.jpg"]).length = 11 ∧
    (["s_1.jpg", "s_2.jpg", "s_3.jpg", "s_4.jpg", "s_5.jpg", "s_6.jpg", "s_7.jpg",
      "s_8.jpg", "s_9.jpg", "s_10.jpg", "s_11.jpg", "s_12.jpg", "s_13.jpg", "s_14.jpg",
      "s_15.jpg"].take 10).length = 10 :=
  ⟨(c6_truncation (fun _ => []) "p" _ (by decide)).2.1,
    (c6_truncation (fun _ => []) "p"
      ["s_1.jpg", "s_2.jpg", "s_3.jpg", "s_4.jpg", "s_5.jpg", "s_6.jpg", "s_7.jpg",
       "s_8.jpg", "s_9.jpg", "s_10.jpg", "s_11.jpg", "s_12.jpg", "s_13.jpg", "s_14.jpg",
       "s_15.jpg"] (by decide)).2.2.2.2⟩

/-- C7 counterexample: the claim quantifies over every evidence artifact
of the item, but an unsupported artifact past the 10-artifact cap is
never encoded. With ten .jpg artifacts followed by `s_11.webp`, the
entry build succeeds (ten data URLs) and a row is appended, so the
build does not fail and a row does exist for the item. -/
theorem c7_counterexample :
    chatgptImageEntries (fun _ => [])
        ["s_1.jpg", "s_2.jpg", "s_3.jpg", "s_4.jpg", "s_5.jpg", "s_6.jpg", "s_7.jpg",
         "s_8.jpg", "s_9.jpg", "s_10.jpg", "s_11.webp"] =
      Except.ok (List.replicate 10 "data:image/jpeg;base64,") ∧
    call_chatgpt_with_images (fun _ => [])
        (fun _ _ => some ("\x7b\"hasShop\": true, \"shopBrand\": \"Spar\", \"accuracy\": 5\x7d", 7))
        ["s_1.jpg", "s_2.jpg", "s_3.jpg", "s_4.jpg", "s_5.jpg", "s_6.jpg", "s_7.jpg",
         "s_8.jpg", "s_9.jpg", "s_10.jpg", "s_11.webp"] "p" "site1" [] =
      [⟨"site1", Json.bool true, Json.str "Spar", Json.num 5, 7⟩] :=
  ⟨rfl, rfl⟩

/-- C7 (amended): for every evidence artifact among the first 10 whose
extension is not jpg/jpeg/png/gif, the encoder raises the
unsupported-format error, the backend-A request build aborts with an
error (no partial request reaches the backend), and no row is appended
for the item. -/
theorem c7_unsupported_extension (read : String → List Nat)
    (respond : String → List String → Option (String × Nat)) (images : List String)
    (prompt_text siteid : String) (table : List ChatgptRow) (path : String)
    (hmem : path ∈ images.take 10)
    (h1 : strEnds path ".jpg" = false) (h2 : strEnds path ".jpeg" = false)
    (h3 : strEnds path ".png" = false) (h4 : strEnds path ".gif" = false) :
    convert_file_to_base64_data_url read path =
      Except.error ("Unsupported file format for " ++ path) ∧
    (∃ e, chatgptImageEntries read images = Except.error e) ∧
    call_chatgpt_with_images read respond images prompt_text siteid table = table := by
  have hconv : convert_file_to_base64_data_url read path =
      Except.error ("Unsupported file format for " ++ path) := by
    simp [convert_file_to_base64_data_url, h1, h2, h3, h4]
  obtain ⟨e, he⟩ :=
    chatgptEntriesAux_error read (images.take 10) [] path _ hmem hconv
  have he' : chatgptImageEntries read images = Except.error e := he
  exact ⟨hconv, ⟨e, he'⟩, by simp [call_chatgpt_with_images, he']⟩

/-- Witness for C7 (amended): the artifact `site1_a.webp` as the length-1
image list: the encoder errors and the table is unchanged. -/
theorem c7_unsupported_extension_witness :
    convert_file_to_base64_data_url (fun _ => []) "site1_a.webp" =
      Except.error ("Unsupported file format for " ++ "site1_a.webp") ∧
    call_chatgpt_with_images (fun _ => []) (fun _ _ => none) ["site1_a.webp"] "p" "site1" []
      = [] :=
  ⟨(c7_unsupported_extension (fun _ => []) (fun _ _ => none) ["site1_a.webp"] "p" "site1" []
      "site1_a.webp" (by decide) rfl rfl rfl rfl).1,
    (c7_unsupported_extension (fun _ => []) (fun _ _ => none) ["site1_a.webp"] "p" "site1" []
      "site1_a.webp" (by decide) rfl rfl rfl rfl).2.2⟩

/-- C8: backend-B token undercount. Whenever a gemini item succeeds, the
appended row's `Tokens` field is exactly the pre-flight token count of
the request parts, with the output token count contributed as the
hard-coded zero. -/
theorem c8_token_undercount (read : String → List Nat) (countTokens : List GPart → Nat)
    (respond : List GPart → Option String) (images : List String)
    (prompt_text siteid text : String) (table : List GeminiRow) (j : Json)
    (hresp : respond (geminiParts read prompt_text images) = some text)
    (hparse : geminiParse text = some j) :
    ∃ row, call_gemini_with_images read countTokens respond images prompt_text siteid table =
        table ++ [row] ∧
      row.tokens = countTokens (geminiParts read prompt_text images) + 0 ∧
      row.tokens = countTokens (geminiParts read prompt_text images) := by
  refine ⟨{ siteID := siteid
            hasShop := jGet j "hasShop"
            shopBrand := jGet j "shopBrand"
            accuracy := jGet j "accuracy"
            tokens := countTokens (geminiParts read prompt_text images) + 0
            usedPhotoDate := jGet j "usedPhotoDate"
            usedPhotoFileName := jGet j "usedPhotoFileName"
            isStreetViewPhoto := jGet j "isStreetViewPhoto" }, ?_, rfl, rfl⟩
  simp [call_gemini_with_images, hresp, hparse]

/-- Witness for C8: a concrete item whose pre-flight count is 42 stores
42 in the appended row's `Tokens` field. -/
theorem c8_token_undercount_witness :
    ∃ row, call_gemini_with_images (fun _ => []) (fun _ => 42)
        (fun _ => some "\x7b\"hasShop\": true\x7d") ["site1_a.jpg"] "p" "site1" [] =
        [] ++ [row] ∧ row.tokens = 42 := by
  obtain ⟨row, h1, _, h3⟩ := c8_token_undercount (fun _ => []) (fun _ => 42)
    (fun _ => some "\x7b\"hasShop\": true\x7d") ["site1_a.jpg"] "p" "site1"
    "\x7b\"hasShop\": true\x7d" [] (Json.obj [("hasShop", Json.bool true)]) rfl rfl
  exact ⟨row, h1, h3⟩

/-- C9 counterexample: the claim says the locator returns exactly the
entries whose name begins with the identifier prefix, but the code also
requires `os.path.isfile`. In a store whose matching entry is not a
regular file (for example a subdirectory named `site1_a.jpg`), the entry
has the prefix yet the locator returns the empty list. -/
theorem c9_counterexample :
    strStarts "site1_a.jpg" ("site1" ++ "_") = true ∧
    get_site_image_paths "site1" ⟨true, ["site1_a.jpg"], fun _ => false⟩ "static/images" =
      Except.ok [] :=
  ⟨rfl, rfl⟩

/-- C9 (amended): the evidence locator fails with the not-found error
exactly when the store root does not exist; when the root exists it
returns, joined to the folder and in the store's native enumeration
order (a sublist of the entries, no sorting applied), exactly the
entries that begin with `siteid ++ "_"` and are regular files. -/
theorem c9_evidence_locator (siteid images_folder : String) (fs : FS) :
    (get_site_image_paths siteid fs images_folder =
        Except.error ("Images folder not found: " ++ images_folder) ↔
      fs.rootExists = false) ∧
    (fs.rootExists = true →
      ∃ kept : List String, List.Sublist kept fs.entries ∧
        (∀ f, f ∈ kept ↔ f ∈ fs.entries ∧ strStarts f (siteid ++ "_") = true ∧
            fs.isFile (joinPath images_folder f) = true) ∧
        get_site_image_paths siteid fs images_folder =
          Except.ok (kept.map (fun f => joinPath images_folder f))) := by
  constructor
  · constructor
    · intro h
      cases hr : fs.rootExists with
      | false => rfl
      | true => rw [get_site_image_paths, hr] at h; simp at h
    · intro h
      simp [get_site_image_paths, h]
  · intro h
    refine ⟨fs.entries.filter
        (fun f => strStarts f (siteid ++ "_") && fs.isFile (joinPath images_folder f)),
      List.filter_sublist _, ?_, ?_⟩
    · intro f
      simp [List.mem_filter]
    · simp [get_site_image_paths, h]

/-- Witness for C9 (amended): a missing store root yields exactly the
not-found error. -/
theorem c9_evidence_locator_witness :
    get_site_image_paths "site1" ⟨false, [], fun _ => true⟩ "imgs" =
      Except.error ("Images folder not found: " ++ "imgs") :=
  (c9_evidence_locator "site1" "imgs" ⟨false, [], fun _ => true⟩).1.mpr rfl

/-- C10: the literal-dialect correction is not semantics-preserving on
already-valid JSON. The payload is strict JSON whose `shopBrand` string
contains the substring "None"; plain JSON parsing keeps the string
intact, while the gemini normalizer's unconditional substitutions
rewrite it inside the double-quoted literal, storing "null Ltd" instead
of "None Ltd". -/
theorem c10_dialect_corrupts_strings :
    jsonParse "\x7b\"shopBrand\": \"None Ltd\"\x7d" =
      some (Json.obj [("shopBrand", Json.str "None Ltd")]) ∧
    geminiParse "\x7b\"shopBrand\": \"None Ltd\"\x7d" =
      some (Json.obj [("shopBrand", Json.str "null Ltd")]) ∧
    ("None Ltd" : String) ≠ "null Ltd" :=
  ⟨rfl, rfl, by decide⟩
